import Mathlib

/-
  Verification development for the OrthancForwarder forwarding pipeline
  (src/orthanc_tools/orthanc_forwarder.py).

  Shallow embedding conventions:
  - Python datetimes are modelled as Nat tick counts (seconds).
  - The collaborator calls made by the pipeline (filter, process, the
    per-destination forwarding attempt, deletion of the source set) are
    recorded as an event trace, so that theorems can speak about which
    external actions an invocation performs.
  - The outcome of an external call that may raise (the instance processor
    callback, a forwarding attempt to one destination) is a parameter of the
    configuration: processor_succeeds, send_succeeds.  The python code only
    observes raised / not raised, which is what these booleans model.
-/

/-- Delivery modes, from class ForwarderMode (orthanc_forwarder.py lines 21-27). -/
inductive ForwarderMode where
  | DICOM
  | DICOM_SERIES_BY_SERIES
  | DICOM_WEB
  | DICOM_WEB_SERIES_BY_SERIES
  | PEERING
  | TRANSFER
deriving DecidableEq

/-- Destination configuration, from dataclass ForwarderDestination (lines 30-34). -/
structure ForwarderDestination where
  destination : String
  forwarder_mode : ForwarderMode
  alternate_destination : Option String := none
deriving DecidableEq

/-- Per-set status record, from dataclass ForwarderInstancesSetStatus (lines 43-48).
    next_retry is a tick count (None modelled as none). -/
structure ForwarderInstancesSetStatus where
  processed : Bool := false
  sent_to_destinations : List String := []
  retry_count : Nat := 0
  next_retry : Option Nat := none
deriving DecidableEq

/-- The retry interval table, OrthancForwarder.retry_intervals (line 83), in seconds. -/
def retry_intervals : List Nat := [60, 120, 300, 1800, 3600]

/-- The delay used when scheduling a retry: the expression
    retry_intervals[min(retry_count, len(retry_intervals) - 1)] from line 293. -/
def retryDelay (retry_count : Nat) : Nat :=
  retry_intervals.getD (min retry_count (retry_intervals.length - 1)) 0

/-- Configuration and external-call outcomes of one OrthancForwarder instance
    (constructor, lines 85-106).  has_instance_filter / has_instance_processor
    record whether the optional callbacks are provided (not None);
    processor_succeeds records whether instances_set.process_instances raises
    (line 216); send_succeeds records, per destination alias and mode, whether
    the _forward_to_destination call raises (lines 237-240). -/
structure OrthancForwarder where
  destinations : List ForwarderDestination
  has_instance_filter : Bool
  has_instance_processor : Bool
  processor_succeeds : Bool
  send_succeeds : String → ForwarderMode → Bool

/-- External actions performed by one invocation of handle_instances_set. -/
inductive Ev where
  | filterInstances
  | processInstances
  | sendTo (destination : String)
  | deleteSet
deriving DecidableEq

/-- Names of the configured destinations, in configuration order. -/
def destNames (f : OrthancForwarder) : List String :=
  f.destinations.map (fun d => d.destination)

/-- OrthancForwarder.process (lines 209-223): returns True when no processor is
    configured, otherwise True iff process_instances did not raise. -/
def process (f : OrthancForwarder) : Bool :=
  if f.has_instance_processor then f.processor_succeeds else true

/-- OrthancForwarder.forward (lines 225-249): iterates over the configured
    destinations; a destination already in already_sent_to_destinations is
    appended to the result without a send attempt (lines 242-245); otherwise
    _forward_to_destination is attempted (event sendTo) and the destination is
    appended only when no exception was raised (lines 235-247).
    Returns (the sent_to_destinations list, the trace of attempts). -/
def forward (destinations : List ForwarderDestination)
    (already_sent_to_destinations : List String)
    (send_succeeds : String → ForwarderMode → Bool) : List String × List Ev :=
  match destinations with
  | [] => ([], [])
  | dest :: rest =>
      let r := forward rest already_sent_to_destinations send_succeeds
      if dest.destination ∈ already_sent_to_destinations then
        (dest.destination :: r.1, r.2)
      else if send_succeeds dest.destination dest.forwarder_mode then
        (dest.destination :: r.1, Ev.sendTo dest.destination :: r.2)
      else
        (r.1, Ev.sendTo dest.destination :: r.2)

/-- Result of one invocation: the status-store entry for the handled set's id
    afterwards (none would mean removed from the store), and the event trace. -/
structure RunResult where
  record : Option ForwarderInstancesSetStatus
  events : List Ev
deriving DecidableEq

/-- Events of the filter step (lines 199-207, 276): filter_instances is invoked
    exactly when an instance_filter callback is configured. -/
def filterEvents (f : OrthancForwarder) : List Ev :=
  if f.has_instance_filter then [Ev.filterInstances] else []

/-- Events of the process step (lines 279-282): the processor callback runs only
    when the status is not yet processed and a processor is configured. -/
def processEvents (f : OrthancForwarder) (st : ForwarderInstancesSetStatus) : List Ev :=
  if st.processed then [] else if f.has_instance_processor then [Ev.processInstances] else []

/-- The status after the process step (lines 279-282): when not yet processed,
    processed is assigned the return value of process(); otherwise unchanged. -/
def afterProcess (f : OrthancForwarder) (st : ForwarderInstancesSetStatus) :
    ForwarderInstancesSetStatus :=
  if st.processed then st else { st with processed := process f }

/-- The body of handle_instances_set after the retry gate (lines 273-300), for a
    set whose status record holds st0 at entry.  now is the current tick, used
    at line 293 (there the source correctly calls datetime.datetime.now()).
    The delete branch (lines 286-288) fires when the list returned by forward
    has the same length as the destination list; the source never removes the
    id from self._status, so record stays present in both branches.  The retry
    branch (lines 289-298) overwrites sent_to_destinations with forward's
    return value, then sets next_retry and increments retry_count. -/
def run (f : OrthancForwarder) (now : Nat) (st0 : ForwarderInstancesSetStatus) : RunResult :=
  if (forward f.destinations st0.sent_to_destinations f.send_succeeds).1.length
      = f.destinations.length then
    ⟨some (afterProcess f st0),
     filterEvents f ++ processEvents f st0
       ++ (forward f.destinations st0.sent_to_destinations f.send_succeeds).2
       ++ [Ev.deleteSet]⟩
  else
    ⟨some { afterProcess f st0 with
            sent_to_destinations :=
              (forward f.destinations st0.sent_to_destinations f.send_succeeds).1,
            retry_count := st0.retry_count + 1,
            next_retry := some (now + retryDelay st0.retry_count) },
     filterEvents f ++ processEvents f st0
       ++ (forward f.destinations st0.sent_to_destinations f.send_succeeds).2⟩

/-- Python exception kinds raised by the embedded code. -/
inductive PyErr where
  | typeError
deriving DecidableEq

/-- handle_instances_set (lines 264-300) at the level of one set's status
    record (rec0 is self._status.get of the set id; none means the id was not
    in the map).  For an absent id, a fresh default record is created (line
    267) and the body runs.  For a present id, line 269 evaluates
    datetime.datetime.now < self._status[id].next_retry: note the missing call
    parentheses, so the bound-method object itself, not the current time, is
    the left operand; in Python comparing it with a datetime (or with None)
    raises TypeError, so the branch always raises before touching the status
    or performing any action.  Returns (result, raised exception if any). -/
def handle_instances_set (f : OrthancForwarder) (now : Nat)
    (rec0 : Option ForwarderInstancesSetStatus) : RunResult × Option PyErr :=
  match rec0 with
  | none => (run f now {}, none)
  | some st => (⟨some st, []⟩, some PyErr.typeError)

/-- A sequence of handle_instances_set invocations for the same set id at the
    given ticks, threading the status record; an invocation that raises leaves
    the record as it was (the exception propagates to the monitor). -/
def handleSeq (f : OrthancForwarder) : List Nat → Option ForwarderInstancesSetStatus →
    Option ForwarderInstancesSetStatus × List Ev
  | [], rec => (rec, [])
  | t :: ts, rec =>
      let r := handle_instances_set f t rec
      let rest := handleSeq f ts r.1.record
      (rest.1, r.1.events ++ rest.2)

/-- The destinations confirmed sent during one round of forward: those not
    already recorded as sent whose attempt raised no exception. -/
def roundSuccesses (destinations : List ForwarderDestination)
    (already : List String) (send_succeeds : String → ForwarderMode → Bool) : List String :=
  (destinations.filter
    (fun d => decide (d.destination ∉ already) && send_succeeds d.destination d.forwarder_mode)).map
    (fun d => d.destination)

/-- The sent_to_destinations list held by a (possibly absent) status record. -/
def recSent : Option ForwarderInstancesSetStatus → List String
  | some st => st.sent_to_destinations
  | none => []

/-- One series of the handled instances set, as seen through the
    orthanc_api_client collaborators used by _forward_to_destination:
    instances_set.get_instances_ids(series_id=s) and
    self._source.series.get(s).statistics.uncompressed_size (lines 312-334). -/
structure SeriesInfo where
  series_id : String
  instances : List String
  uncompressed_size : Nat
deriving DecidableEq

/-- Transport calls issued by _forward_to_destination, one constructor per
    client used in lines 302-347 (modalities.send, dicomweb_servers.send,
    peers.send, transfers.send), recording target alias and resource ids. -/
inductive TCall where
  | modalitySend (target_modality : String) (resources_ids : List String)
  | dicomwebSend (target_server : String) (resources_ids : List String)
  | peerSend (target_peer : String) (resources_ids : List String)
  | transferSend (target_peer : String) (resources_ids : List String)
deriving DecidableEq

/-- The DICOM_WEB_SERIES_BY_SERIES loop of _forward_to_destination (lines
    322-335), assuming the dicomweb sends themselves do not raise.  For each
    series in order: when statistics.uncompressed_size > 1*1024*1024*1024 the
    source evaluates instances_set.get_instances_ids(seris_id=s) (line 326) —
    the keyword is misspelled (the correct series_id keyword is used at lines
    312, 319 and 334), so Python raises TypeError before any per-instance
    send; the loop stops there.  Otherwise one dicomweb send carries the whole
    series.  Returns (calls issued so far, whether a TypeError was raised). -/
def webSeriesBySeries (target_server : String) : List SeriesInfo → List TCall × Bool
  | [] => ([], false)
  | s :: rest =>
      if 1 * 1024 * 1024 * 1024 < s.uncompressed_size then
        ([], true)
      else
        let r := webSeriesBySeries target_server rest
        (TCall.dicomwebSend target_server s.instances :: r.1, r.2)

/-- _forward_to_destination (lines 302-350), assuming the transport sends
    themselves do not raise; series lists the set's series in order and
    all_instances is instances_set.instances_ids.  Returns the transport calls
    issued and whether the call raised (only the misspelled-keyword TypeError
    of the DICOM_WEB_SERIES_BY_SERIES branch is a raise under this model). -/
def forward_to_destination (series : List SeriesInfo) (all_instances : List String)
    (destination : ForwarderDestination) : List TCall × Bool :=
  match destination.forwarder_mode with
  | ForwarderMode.DICOM =>
      ([TCall.modalitySend destination.destination all_instances], false)
  | ForwarderMode.DICOM_SERIES_BY_SERIES =>
      (series.map (fun s => TCall.modalitySend destination.destination s.instances), false)
  | ForwarderMode.DICOM_WEB =>
      (series.map (fun s => TCall.dicomwebSend destination.destination s.instances), false)
  | ForwarderMode.DICOM_WEB_SERIES_BY_SERIES =>
      webSeriesBySeries destination.destination series
  | ForwarderMode.PEERING =>
      ([TCall.peerSend destination.destination all_instances], false)
  | ForwarderMode.TRANSFER =>
      ([TCall.transferSend destination.destination all_instances], false)

theorem forward_length_le (ds : List ForwarderDestination) (already : List String)
    (ok : String → ForwarderMode → Bool) :
    (forward ds already ok).1.length ≤ ds.length := by
  induction ds with
  | nil => simp [forward]
  | cons d rest ih =>
      simp only [forward]
      split
      · simpa using Nat.succ_le_succ ih
      · split
        · simpa using Nat.succ_le_succ ih
        · exact Nat.le_trans ih (Nat.le_succ _)

theorem forward_length_eq_iff (ds : List ForwarderDestination) (already : List String)
    (ok : String → ForwarderMode → Bool) :
    (forward ds already ok).1.length = ds.length ↔
      ∀ d ∈ ds, d.destination ∈ already ∨ ok d.destination d.forwarder_mode = true := by
  induction ds with
  | nil => simp [forward]
  | cons d rest ih =>
      simp only [forward, List.forall_mem_cons]
      split
      · rename_i hmem
        simp only [List.length_cons, Nat.succ_inj]
        rw [ih]
        simp [hmem]
      · split
        · rename_i hmem hok
          simp only [List.length_cons, Nat.succ_inj]
          rw [ih]
          simp [hok]
        · rename_i hmem hok
          constructor
          · intro h
            exact absurd h (Nat.ne_of_lt
              (Nat.lt_succ_of_le (forward_length_le rest already ok)))
          · intro h
            rcases h.1 with h1 | h1
            · exact absurd h1 hmem
            · exact absurd h1 hok

theorem mem_forward_sent_iff (ds : List ForwarderDestination) (already : List String)
    (ok : String → ForwarderMode → Bool) (x : String) :
    x ∈ (forward ds already ok).1 ↔
      ∃ d ∈ ds, d.destination = x ∧
        (d.destination ∈ already ∨ ok d.destination d.forwarder_mode = true) := by
  induction ds with
  | nil => simp [forward]
  | cons d rest ih =>
      simp only [forward, List.exists_mem_cons_iff]
      split
      · rename_i hmem
        simp only [List.mem_cons, ih]
        constructor
        · rintro (h | h)
          · exact Or.inl ⟨h.symm, Or.inl (h ▸ hmem)⟩
          · exact Or.inr h
        · rintro (⟨h1, _⟩ | h)
          · exact Or.inl h1.symm
          · exact Or.inr h
      · split
        · rename_i hmem hok
          simp only [List.mem_cons, ih]
          constructor
          · rintro (h | h)
            · exact Or.inl ⟨h.symm, Or.inr (h ▸ hok)⟩
            · exact Or.inr h
          · rintro (⟨h1, _⟩ | h)
            · exact Or.inl h1.symm
            · exact Or.inr h
        · rename_i hmem hok
          rw [ih]
          constructor
          · exact fun h => Or.inr h
          · rintro (⟨h1, h2⟩ | h)
            · subst h1
              rcases h2 with h2 | h2
              · exact absurd h2 hmem
              · exact absurd h2 hok
            · exact h

theorem mem_forward_events_iff (ds : List ForwarderDestination) (already : List String)
    (ok : String → ForwarderMode → Bool) (e : Ev) :
    e ∈ (forward ds already ok).2 ↔
      ∃ d ∈ ds, e = Ev.sendTo d.destination ∧ d.destination ∉ already := by
  induction ds with
  | nil => simp [forward]
  | cons d rest ih =>
      simp only [forward, List.exists_mem_cons_iff]
      split
      · rename_i hmem
        rw [ih]
        constructor
        · exact fun h => Or.inr h
        · rintro (⟨_, h2⟩ | h)
          · exact absurd hmem h2
          · exact h
      · split
        · rename_i hmem hok
          simp only [List.mem_cons, ih]
          constructor
          · rintro (h | h)
            · exact Or.inl ⟨h, hmem⟩
            · exact Or.inr h
          · rintro (⟨h1, _⟩ | h)
            · exact Or.inl h1
            · exact Or.inr h
        · rename_i hmem hok
          simp only [List.mem_cons, ih]
          constructor
          · rintro (h | h)
            · exact Or.inl ⟨h, hmem⟩
            · exact Or.inr h
          · rintro (⟨h1, _⟩ | h)
            · exact Or.inl h1
            · exact Or.inr h

theorem afterProcess_sent (f : OrthancForwarder) (st : ForwarderInstancesSetStatus) :
    (afterProcess f st).sent_to_destinations = st.sent_to_destinations := by
  unfold afterProcess
  split <;> rfl

theorem afterProcess_processed (f : OrthancForwarder) (st : ForwarderInstancesSetStatus) :
    (afterProcess f st).processed = (st.processed || process f) := by
  unfold afterProcess
  split
  · rename_i h
    simp [h]
  · rename_i h
    simp at h
    simp [h]

theorem deleteSet_not_mem_filterEvents (f : OrthancForwarder) :
    Ev.deleteSet ∉ filterEvents f := by
  unfold filterEvents
  split <;> simp

theorem deleteSet_not_mem_processEvents (f : OrthancForwarder)
    (st : ForwarderInstancesSetStatus) :
    Ev.deleteSet ∉ processEvents f st := by
  unfold processEvents
  split
  · simp
  · split <;> simp

theorem deleteSet_not_mem_forward (ds : List ForwarderDestination) (already : List String)
    (ok : String → ForwarderMode → Bool) :
    Ev.deleteSet ∉ (forward ds already ok).2 := by
  intro h
  rw [mem_forward_events_iff] at h
  rcases h with ⟨d, _, h2, _⟩
  exact Ev.noConfusion h2

theorem deleteSet_mem_run_iff (f : OrthancForwarder) (now : Nat)
    (st0 : ForwarderInstancesSetStatus) :
    Ev.deleteSet ∈ (run f now st0).events ↔
      (forward f.destinations st0.sent_to_destinations f.send_succeeds).1.length
        = f.destinations.length := by
  unfold run
  split
  · rename_i h
    simp [h]
  · rename_i h
    simp only [List.mem_append]
    constructor
    · rintro ((h1 | h1) | h1)
      · exact absurd h1 (deleteSet_not_mem_filterEvents f)
      · exact absurd h1 (deleteSet_not_mem_processEvents f st0)
      · exact absurd h1 (deleteSet_not_mem_forward _ _ _)
    · intro h1
      exact absurd h1 h

theorem run_record_isSome (f : OrthancForwarder) (now : Nat)
    (st0 : ForwarderInstancesSetStatus) :
    ((run f now st0).record).isSome = true := by
  unfold run
  split <;> rfl

theorem run_record_processed (f : OrthancForwarder) (now : Nat)
    (st0 : ForwarderInstancesSetStatus) :
    (run f now st0).record.map (fun st => st.processed)
      = some ((afterProcess f st0).processed) := by
  unfold run
  split <;> rfl

theorem roundSuccesses_mem_iff (ds : List ForwarderDestination) (already : List String)
    (ok : String → ForwarderMode → Bool) (x : String) :
    x ∈ roundSuccesses ds already ok ↔
      ∃ d ∈ ds, d.destination = x ∧ d.destination ∉ already ∧
        ok d.destination d.forwarder_mode = true := by
  unfold roundSuccesses
  simp only [List.mem_map, List.mem_filter, Bool.and_eq_true, decide_eq_true_eq]
  constructor
  · rintro ⟨d, ⟨hd, hna, hok⟩, hx⟩
    exact ⟨d, hd, hx, hna, hok⟩
  · rintro ⟨d, hd, hx, hna, hok⟩
    exact ⟨d, ⟨hd, hna, hok⟩, hx⟩

theorem cover_iff_seteq (ds : List ForwarderDestination) (already : List String)
    (ok : String → ForwarderMode → Bool)
    (hnd : (ds.map (fun d => d.destination)).Nodup)
    (hsub : ∀ x ∈ already, x ∈ ds.map (fun d => d.destination)) :
    (∀ d ∈ ds, d.destination ∈ already ∨ ok d.destination d.forwarder_mode = true) ↔
      (∀ x, (x ∈ already ∨ x ∈ roundSuccesses ds already ok) ↔
        x ∈ ds.map (fun d => d.destination)) := by
  constructor
  · intro h x
    constructor
    · rintro (hx | hx)
      · exact hsub x hx
      · rw [roundSuccesses_mem_iff] at hx
        rcases hx with ⟨d, hd, hdx, _, _⟩
        exact hdx ▸ List.mem_map_of_mem _ hd
    · intro hx
      rcases List.mem_map.mp hx with ⟨d, hd, hdx⟩
      by_cases hmem : d.destination ∈ already
      · exact Or.inl (hdx ▸ hmem)
      · rcases h d hd with hc | hc
        · exact absurd hc hmem
        · exact Or.inr ((roundSuccesses_mem_iff ds already ok x).mpr
            ⟨d, hd, hdx, hmem, hc⟩)
  · intro h d hd
    have hx : d.destination ∈ ds.map (fun d => d.destination) :=
      List.mem_map_of_mem _ hd
    rcases (h d.destination).mpr hx with hc | hc
    · exact Or.inl hc
    · rw [roundSuccesses_mem_iff] at hc
      rcases hc with ⟨d', hd', hdx, _, hok⟩
      have : d' = d := List.inj_on_of_nodup_map hnd hd' hd hdx
      exact Or.inr (this ▸ hok)

/-- The sent_to list stored by run stays within the configured destination
    names: the invariant that justifies the subset hypotheses below (the
    initial record has an empty list, and every update stores forward's
    return value, whose entries are configured destination names). -/
theorem run_sent_subset (f : OrthancForwarder) (now : Nat)
    (st0 : ForwarderInstancesSetStatus)
    (hsub : ∀ x ∈ st0.sent_to_destinations, x ∈ destNames f) :
    ∀ x ∈ recSent (run f now st0).record, x ∈ destNames f := by
  unfold run
  split
  · intro x hx
    simp only [recSent] at hx
    rw [afterProcess_sent] at hx
    exact hsub x hx
  · intro x hx
    simp only [recSent] at hx
    rcases (mem_forward_sent_iff _ _ _ x).mp hx with ⟨d, hd, hdx, _⟩
    exact hdx ▸ List.mem_map_of_mem _ hd

/-- A destination named A reached over plain DICOM, no alternate. -/
def destA : ForwarderDestination :=
  { destination := "A", forwarder_mode := ForwarderMode.DICOM }

/-- Forwarder with the single destination A, no filter, no processor,
    all sends succeeding. -/
def fwdA : OrthancForwarder :=
  { destinations := [destA]
    has_instance_filter := false
    has_instance_processor := false
    processor_succeeds := true
    send_succeeds := fun _ _ => true }

/-- Forwarder with the single destination A, a configured instance processor
    whose callback raises, and all sends succeeding. -/
def fwdProcFail : OrthancForwarder :=
  { destinations := [destA]
    has_instance_filter := false
    has_instance_processor := true
    processor_succeeds := false
    send_succeeds := fun _ _ => true }

/-- Forwarder with the single destination A, a configured instance processor
    that succeeds, and all sends succeeding. -/
def fwdProc : OrthancForwarder :=
  { destinations := [destA]
    has_instance_filter := false
    has_instance_processor := true
    processor_succeeds := true
    send_succeeds := fun _ _ => true }

theorem count_processInstances_filterEvents (f : OrthancForwarder) :
    (filterEvents f).count Ev.processInstances = 0 := by
  apply List.count_eq_zero.mpr
  unfold filterEvents
  split <;> simp

theorem count_processInstances_forward (ds : List ForwarderDestination)
    (already : List String) (ok : String → ForwarderMode → Bool) :
    ((forward ds already ok).2).count Ev.processInstances = 0 := by
  apply List.count_eq_zero.mpr
  intro h
  rcases (mem_forward_events_iff ds already ok Ev.processInstances).mp h with ⟨d, _, h2, _⟩
  exact Ev.noConfusion h2

theorem count_processEvents (f : OrthancForwarder) (st : ForwarderInstancesSetStatus) :
    (processEvents f st).count Ev.processInstances
      = if st.processed then 0 else if f.has_instance_processor then 1 else 0 := by
  unfold processEvents
  split
  · rfl
  · split <;> decide

theorem count_processInstances_run (f : OrthancForwarder) (now : Nat)
    (st0 : ForwarderInstancesSetStatus) :
    ((run f now st0).events).count Ev.processInstances
      = (processEvents f st0).count Ev.processInstances := by
  unfold run
  split <;>
    simp [List.count_append, count_processInstances_filterEvents,
      count_processInstances_forward]

theorem handleSeq_existing (f : OrthancForwarder) (ts : List Nat)
    (st : ForwarderInstancesSetStatus) :
    handleSeq f ts (some st) = (some st, []) := by
  induction ts with
  | nil => rfl
  | cons t ts ih => simp [handleSeq, handle_instances_set, ih]

/-- Claim C9: the retry delay retry_intervals[min(retry_count, len - 1)] is
    total on all retry counts, monotonically non-decreasing, and saturates at
    the final table value 3600 from index len - 1 on; totality is expressed as
    the result always being one of the table entries. -/
theorem retryDelay_total_monotone_saturating :
    (∀ a b, a ≤ b → retryDelay a ≤ retryDelay b) ∧
    (∀ rc, retry_intervals.length - 1 ≤ rc → retryDelay rc = 3600) ∧
    (∀ rc, retryDelay rc ∈ retry_intervals) := by
  have hb : ∀ j < 5, ∀ i < 5, i ≤ j →
      retry_intervals.getD i 0 ≤ retry_intervals.getD j 0 := by decide
  have hm : ∀ i < 5, retry_intervals.getD i 0 ∈ retry_intervals := by decide
  refine ⟨?_, ?_, ?_⟩
  · intro a b hab
    exact hb (min b 4) (Nat.lt_succ_of_le (Nat.min_le_right b 4))
      (min a 4) (Nat.lt_succ_of_le (Nat.min_le_right a 4))
      (min_le_min hab (Nat.le_refl 4))
  · intro rc h
    unfold retryDelay
    rw [min_eq_right h]
    rfl
  · intro rc
    exact hm (min rc 4) (Nat.lt_succ_of_le (Nat.min_le_right rc 4))

/-- Witness for C9 at concrete retry counts. -/
theorem retryDelay_total_monotone_saturating_witness :
    (1 ≤ 3 ∧ retryDelay 1 ≤ retryDelay 3) ∧
    (retry_intervals.length - 1 ≤ 10 ∧ retryDelay 10 = 3600) ∧
    retryDelay 7 ∈ retry_intervals :=
  ⟨⟨by decide, retryDelay_total_monotone_saturating.1 1 3 (by decide)⟩,
   ⟨by decide, retryDelay_total_monotone_saturating.2.1 10 (by decide)⟩,
   retryDelay_total_monotone_saturating.2.2 7⟩

/-- Claim C2 (code bug evidence): for an identity whose status record exists
    with next_retry set in the future, a further handle_instances_set call
    does not return as a silent no-op: line 269 compares the uncalled
    datetime.datetime.now method object with the stored datetime, which raises
    TypeError.  The invocation does perform no filter, process, delivery or
    deletion action and leaves the record unchanged, but only because the
    exception aborts it before those steps; the exception then propagates to
    the caller. -/
theorem retry_gate_raises_typeError (f : OrthancForwarder) (now : Nat)
    (st : ForwarderInstancesSetStatus) (nr : Nat)
    (h1 : st.next_retry = some nr) (h2 : now < nr) :
    (handle_instances_set f now (some st)).2 = some PyErr.typeError ∧
    (handle_instances_set f now (some st)).1.record = some st ∧
    (handle_instances_set f now (some st)).1.events = [] :=
  ⟨rfl, rfl, rfl⟩

/-- Witness for C2: a record scheduled for retry at tick 100, invoked at tick 0. -/
theorem retry_gate_raises_typeError_witness :
    ({ next_retry := some 100 } : ForwarderInstancesSetStatus).next_retry = some 100 ∧
    (0 : Nat) < 100 ∧
    (handle_instances_set fwdA 0
        (some { next_retry := some 100 })).2 = some PyErr.typeError :=
  ⟨rfl, by decide,
   (retry_gate_raises_typeError fwdA 0 { next_retry := some 100 } 100 rfl (by decide)).1⟩

/-- Claim C7: a destination already recorded in the sent-to list passed to
    forward gets no _forward_to_destination attempt (no sendTo event names
    it), yet it still appears in the list forward returns, so it counts toward
    the completion decision. -/
theorem already_sent_no_call_still_counted (ds : List ForwarderDestination)
    (already : List String) (ok : String → ForwarderMode → Bool)
    (d : ForwarderDestination) (h1 : d ∈ ds) (h2 : d.destination ∈ already) :
    Ev.sendTo d.destination ∉ (forward ds already ok).2 ∧
    d.destination ∈ (forward ds already ok).1 := by
  constructor
  · intro hmem
    rcases (mem_forward_events_iff ds already ok (Ev.sendTo d.destination)).mp hmem
      with ⟨d', _, heq, hna⟩
    have hde : d.destination = d'.destination := by
      injection heq
    exact hna (hde ▸ h2)
  · exact (mem_forward_sent_iff ds already ok d.destination).mpr ⟨d, h1, rfl, Or.inl h2⟩

/-- Witness for C7: destination A already sent, one-destination configuration. -/
theorem already_sent_no_call_still_counted_witness :
    destA ∈ [destA] ∧ destA.destination ∈ ["A"] ∧
    (Ev.sendTo destA.destination ∉ (forward [destA] ["A"] (fun _ _ => true)).2 ∧
     destA.destination ∈ (forward [destA] ["A"] (fun _ _ => true)).1) :=
  ⟨by decide, by decide,
   already_sent_no_call_still_counted [destA] ["A"] (fun _ _ => true) destA
     (by decide) (by decide)⟩

/-- Claim C10: forwarding behaviour is independent of alternate_destination.
    For any rewriting of the alternate_destination fields (with destination
    alias and mode kept), forward returns the same sent list and issues the
    same attempt sequence, and _forward_to_destination issues exactly the same
    transport calls with the same outcome — the fallback destination is never
    consulted, whatever the send outcomes (send_succeeds is arbitrary, so this
    also covers primary-destination failure). -/
theorem alternate_destination_inert :
    ∀ (altOf : ForwarderDestination → Option String) (ds : List ForwarderDestination)
      (already : List String) (ok : String → ForwarderMode → Bool)
      (series : List SeriesInfo) (all_instances : List String)
      (d : ForwarderDestination),
      forward (ds.map (fun x => { x with alternate_destination := altOf x })) already ok
        = forward ds already ok ∧
      forward_to_destination series all_instances
          { d with alternate_destination := altOf d }
        = forward_to_destination series all_instances d := by
  intro altOf ds already ok series all_instances d
  constructor
  · induction ds with
    | nil => rfl
    | cons x rest ih =>
        simp only [List.map_cons, forward, ih]
  · cases d with
    | mk dest mode alt => cases mode <;> rfl

/-- Claim C3: at the end of the pipeline body (the part of handle_instances_set
    after the retry gate), the resource set is deleted from the source if and
    only if the stored sent-to list together with this round's successful
    sends covers, as a set, exactly the configured destination names.  The
    hypotheses are the configuration well-formedness (distinct destination
    aliases, implicit in speaking of the destination set) and the store
    invariant run_sent_subset. -/
theorem delete_iff_sent_covers_destinations (f : OrthancForwarder) (now : Nat)
    (st0 : ForwarderInstancesSetStatus)
    (hnd : (destNames f).Nodup)
    (hsub : ∀ x ∈ st0.sent_to_destinations, x ∈ destNames f) :
    Ev.deleteSet ∈ (run f now st0).events ↔
      ∀ x, (x ∈ st0.sent_to_destinations ∨
             x ∈ roundSuccesses f.destinations st0.sent_to_destinations f.send_succeeds) ↔
           x ∈ destNames f := by
  rw [deleteSet_mem_run_iff, forward_length_eq_iff]
  exact cover_iff_seteq f.destinations st0.sent_to_destinations f.send_succeeds hnd hsub

/-- Witness for C3: single destination A, fresh status, successful send; the
    iff is applied at the concrete deletion fact and instantiated at name A. -/
theorem delete_iff_sent_covers_destinations_witness :
    (destNames fwdA).Nodup ∧
    Ev.deleteSet ∈ (run fwdA 0 {}).events ∧
    (("A" ∈ ({} : ForwarderInstancesSetStatus).sent_to_destinations ∨
       "A" ∈ roundSuccesses fwdA.destinations
               ({} : ForwarderInstancesSetStatus).sent_to_destinations
               fwdA.send_succeeds) ↔
     "A" ∈ destNames fwdA) :=
  ⟨by decide, by decide,
   (delete_iff_sent_covers_destinations fwdA 0 {} (by decide) (by decide)).mp
     (by decide) "A"⟩

/-- Claim C6: the stored sent-to list never loses a previously confirmed
    destination.  First conjunct: after the pipeline body, every previously
    stored name is still stored (in the delete branch the list is left as is;
    in the retry branch the overwrite re-contains it because forward re-appends
    names already sent).  Second conjunct: when no deletion happened (the
    branch that records sent destinations), the new stored list is exactly,
    as a set, the union of the old list and this round's successes.  Third
    conjunct: an invocation for an already tracked identity leaves the record
    unchanged (it raises at the retry gate before mutating anything). -/
theorem sent_to_destinations_monotone (f : OrthancForwarder) (now : Nat)
    (st0 : ForwarderInstancesSetStatus)
    (hsub : ∀ x ∈ st0.sent_to_destinations, x ∈ destNames f) :
    (∀ x ∈ st0.sent_to_destinations, x ∈ recSent (run f now st0).record) ∧
    (Ev.deleteSet ∉ (run f now st0).events →
      ∀ x, x ∈ recSent (run f now st0).record ↔
        (x ∈ st0.sent_to_destinations ∨
         x ∈ roundSuccesses f.destinations st0.sent_to_destinations f.send_succeeds)) ∧
    (∀ st : ForwarderInstancesSetStatus,
      (handle_instances_set f now (some st)).1.record = some st) := by
  by_cases hlen : (forward f.destinations st0.sent_to_destinations f.send_succeeds).1.length
      = f.destinations.length
  · refine ⟨?_, ?_, fun st => rfl⟩
    · intro x hx
      have hrec : recSent (run f now st0).record = st0.sent_to_destinations := by
        unfold run
        rw [if_pos hlen]
        simp [recSent, afterProcess_sent]
      rw [hrec]
      exact hx
    · intro hno
      exact absurd ((deleteSet_mem_run_iff f now st0).mpr hlen) hno
  · have hrec : recSent (run f now st0).record
        = (forward f.destinations st0.sent_to_destinations f.send_succeeds).1 := by
      unfold run
      rw [if_neg hlen]
      rfl
    refine ⟨?_, ?_, fun st => rfl⟩
    · intro x hx
      rw [hrec]
      rcases List.mem_map.mp (hsub x hx) with ⟨d, hd, hdx⟩
      exact (mem_forward_sent_iff _ _ _ x).mpr ⟨d, hd, hdx, Or.inl (hdx ▸ hx)⟩
    · intro _ x
      rw [hrec, mem_forward_sent_iff]
      constructor
      · rintro ⟨d, hd, hdx, hc | hc⟩
        · exact Or.inl (hdx ▸ hc)
        · by_cases hmem : x ∈ st0.sent_to_destinations
          · exact Or.inl hmem
          · exact Or.inr ((roundSuccesses_mem_iff _ _ _ x).mpr
              ⟨d, hd, hdx, fun hin => hmem (hdx ▸ hin), hc⟩)
      · rintro (hx | hx)
        · rcases List.mem_map.mp (hsub x hx) with ⟨d, hd, hdx⟩
          exact ⟨d, hd, hdx, Or.inl (hdx ▸ hx)⟩
        · rcases (roundSuccesses_mem_iff _ _ _ x).mp hx with ⟨d, hd, hdx, _, hok⟩
          exact ⟨d, hd, hdx, Or.inr hok⟩

/-- Witness for C6: name A already recorded as sent is still recorded after
    the invocation, instantiated fully concretely. -/
theorem sent_to_destinations_monotone_witness :
    "A" ∈ (["A"] : List String) ∧
    "A" ∈ recSent (run fwdA 0 { sent_to_destinations := ["A"] }).record :=
  ⟨by decide,
   (sent_to_destinations_monotone fwdA 0 { sent_to_destinations := ["A"] }
      (by decide)).1 "A" (by decide)⟩

/-- Claim C4 as amended: an invocation that achieves confirmed delivery to all
    configured destinations deletes the resource set from the source, but the
    status record is never removed from the status store: handle_instances_set
    leaves a record present for the identity in every case (the source has no
    statement deleting self._status entries).  Deletion of the source set
    happens exactly when forward's return covers every destination slot. -/
theorem status_record_never_cleared :
    ∀ (f : OrthancForwarder) (now : Nat) (rec0 : Option ForwarderInstancesSetStatus)
      (st0 : ForwarderInstancesSetStatus),
      ((handle_instances_set f now rec0).1.record).isSome = true ∧
      (Ev.deleteSet ∈ (run f now st0).events ↔
        (forward f.destinations st0.sent_to_destinations f.send_succeeds).1.length
          = f.destinations.length) := by
  intro f now rec0 st0
  refine ⟨?_, deleteSet_mem_run_iff f now st0⟩
  cases rec0 with
  | none => exact run_record_isSome f now {}
  | some st => rfl

/-- Counterexample for C4 as originally claimed: with one destination A and a
    successful send, a first invocation deletes the set from the source, yet
    the identity's status record is still present (and marked processed)
    afterwards — it was not removed from the status store. -/
theorem terminal_delivery_keeps_status_record :
    (handle_instances_set fwdA 0 none).2 = none ∧
    Ev.deleteSet ∈ (handle_instances_set fwdA 0 none).1.events ∧
    (handle_instances_set fwdA 0 none).1.record =
      some { processed := true, sent_to_destinations := [], retry_count := 0,
             next_retry := none } := by
  refine ⟨rfl, ?_, rfl⟩
  decide

/-- Counterexample for C1 as originally claimed: one destination A whose send
    succeeds, a configured processor whose callback raises.  process() returns
    False, yet the invocation still attempts delivery to A (a sendTo event is
    present), deletes the set from the source, and performs no retry
    scheduling (retry_count stays 0 and next_retry stays none). -/
theorem process_failure_counterexample :
    process fwdProcFail = false ∧
    Ev.sendTo "A" ∈ (handle_instances_set fwdProcFail 0 none).1.events ∧
    Ev.deleteSet ∈ (handle_instances_set fwdProcFail 0 none).1.events ∧
    (handle_instances_set fwdProcFail 0 none).1.record =
      some { processed := false, sent_to_destinations := [], retry_count := 0,
             next_retry := none } := by
  refine ⟨rfl, ?_, ?_, rfl⟩ <;> decide

/-- Claim C1 as amended: when the process step fails for a not-yet-processed
    set, processed stays false, but the invocation does not skip forwarding:
    its event trace is the filter events, the processor attempt, then exactly
    the forward step's attempts, and deletion still occurs when forward covers
    all destinations.  Retry scheduling (retry_count + 1, next_retry set from
    the retry table) happens only in the non-covering case, as for a
    forwarding failure. -/
theorem process_failure_still_forwards (f : OrthancForwarder) (now : Nat)
    (st0 : ForwarderInstancesSetStatus)
    (h0 : st0.processed = false) (hp : f.has_instance_processor = true)
    (hf : f.processor_succeeds = false) :
    ((run f now st0).record.map (fun st => st.processed) = some false) ∧
    ((run f now st0).events =
       filterEvents f ++ [Ev.processInstances]
         ++ (forward f.destinations st0.sent_to_destinations f.send_succeeds).2
         ++ (if (forward f.destinations st0.sent_to_destinations f.send_succeeds).1.length
               = f.destinations.length then [Ev.deleteSet] else [])) ∧
    ((forward f.destinations st0.sent_to_destinations f.send_succeeds).1.length
        ≠ f.destinations.length →
      (run f now st0).record =
        some { processed := false,
               sent_to_destinations :=
                 (forward f.destinations st0.sent_to_destinations f.send_succeeds).1,
               retry_count := st0.retry_count + 1,
               next_retry := some (now + retryDelay st0.retry_count) }) := by
  have hpr : process f = false := by
    simp [process, hp, hf]
  refine ⟨?_, ?_, ?_⟩
  · rw [run_record_processed, afterProcess_processed, h0, hpr]
    rfl
  · unfold run
    split
    · rename_i hlen
      simp [processEvents, h0, hp, hlen]
    · rename_i hlen
      simp [processEvents, h0, hp, hlen]
  · intro hlen
    unfold run
    rw [if_neg hlen]
    simp only [afterProcess, h0, Bool.false_eq_true, if_false, hpr]

/-- Witness for C1 as amended: the failing-processor configuration, fresh
    status; processed stays false after the invocation. -/
theorem process_failure_still_forwards_witness :
    ({} : ForwarderInstancesSetStatus).processed = false ∧
    fwdProcFail.has_instance_processor = true ∧
    fwdProcFail.processor_succeeds = false ∧
    (run fwdProcFail 0 {}).record.map (fun st => st.processed) = some false :=
  ⟨rfl, rfl, rfl, (process_failure_still_forwards fwdProcFail 0 {} rfl rfl rfl).1⟩

/-- Claim C5: across a sequence of handle_instances_set invocations for one
    identity (first sight, then retries), a configured transform callback that
    succeeds on the first attempt runs exactly once (conjunct 1: exactly one
    processInstances event over any invocation sequence starting from an
    untracked identity).  Conjunct 2: a single invocation maps processed to
    old-processed OR process(), so true is never reset to false.  Conjunct 3:
    an invocation for an already tracked identity leaves the record unchanged
    (the retry gate raises before the process step), so processed can flip
    false to true at most once, on the first invocation. -/
theorem processed_monotone_transform_once (f : OrthancForwarder)
    (hp : f.has_instance_processor = true) (hs : f.processor_succeeds = true) :
    (∀ (t : Nat) (ts : List Nat),
      ((handleSeq f (t :: ts) none).2).count Ev.processInstances = 1) ∧
    (∀ (now : Nat) (st0 : ForwarderInstancesSetStatus),
      (run f now st0).record.map (fun st => st.processed)
        = some (st0.processed || process f)) ∧
    (∀ (now : Nat) (st : ForwarderInstancesSetStatus),
      (handle_instances_set f now (some st)).1.record = some st) := by
  refine ⟨?_, ?_, fun now st => rfl⟩
  · intro t ts
    have hrec : ∃ st', (run f t {}).record = some st' := by
      cases hrun : (run f t {}).record with
      | none =>
          have hsome := run_record_isSome f t {}
          rw [hrun] at hsome
          exact absurd hsome (by simp)
      | some st' => exact ⟨st', rfl⟩
    rcases hrec with ⟨st', hst'⟩
    have hcount := count_processInstances_run f t {}
    simp [handleSeq, handle_instances_set, hst', handleSeq_existing,
      List.count_append, hcount, count_processEvents, hp]
  · intro now st0
    rw [run_record_processed, afterProcess_processed]

/-- Witness for C5: processor configured and succeeding, two invocations (the
    second after the first round's state), exactly one transform application. -/
theorem processed_monotone_transform_once_witness :
    fwdProc.has_instance_processor = true ∧
    fwdProc.processor_succeeds = true ∧
    ((handleSeq fwdProc [0, 1000] none).2).count Ev.processInstances = 1 :=
  ⟨rfl, rfl, (processed_monotone_transform_once fwdProc rfl rfl).1 0 [1000]⟩

/-- Claim C8 (code bug evidence): in the DICOM_WEB_SERIES_BY_SERIES dispatch,
    a series at or below the 1 GiB threshold is sent with a single dicomweb
    call carrying the whole series (conjunct 2), but a series whose
    uncompressed size exceeds the threshold does not yield one call per
    instance: line 326 calls get_instances_ids with the misspelled keyword
    seris_id (elsewhere in the file the keyword is series_id), which raises
    TypeError before any per-instance send, so no call at all is made for the
    oversized series (conjuncts 1 and 3). -/
theorem web_series_split_raises_typeError :
    webSeriesBySeries "dw"
        [{ series_id := "s1", instances := ["i1", "i2"],
           uncompressed_size := 1 * 1024 * 1024 * 1024 + 1 }] = ([], true) ∧
    webSeriesBySeries "dw"
        [{ series_id := "s1", instances := ["i1", "i2"],
           uncompressed_size := 1 * 1024 * 1024 * 1024 }]
      = ([TCall.dicomwebSend "dw" ["i1", "i2"]], false) ∧
    forward_to_destination
        [{ series_id := "s1", instances := ["i1", "i2"],
           uncompressed_size := 1 * 1024 * 1024 * 1024 + 1 }] ["i1", "i2"]
        { destination := "dw",
          forwarder_mode := ForwarderMode.DICOM_WEB_SERIES_BY_SERIES }
      = ([], true) := by
  refine ⟨?_, ?_, ?_⟩ <;> decide
